import Mathlib

/-!
Shallow embedding of `src/index.js` (an IMAP-to-Telegram forwarder).

Strings are modelled as `List Char`.  JS truthiness on strings (empty
string is falsy) is modelled explicitly where the source relies on it.
Machine integers do not occur; all counts are `Nat`.

Structure of the file: data model and operations first (each definition
cites the source lines it embeds), then theorems about the claims.
-/

/-- A message identifier: the server-assigned numeric UID (`attrs.uid`,
line 166) or, when the UID is missing, the synthesized fallback string
`fallback-...` built on line 174.  JS `includes` compares with strict
equality, under which a number never equals a string; the two
constructors reflect that. -/
inductive Uid where
  | num (n : Nat)
  | str (s : List Char)
  deriving DecidableEq

/-- The lowdb document (lines 38-42).  The default data passed to
`new Low(adapter, { lastEmailUid: null })` has a `lastEmailUid` field and
no `processedUids` field; a field that may be absent at runtime is an
`Option`. -/
structure DbData where
  lastEmailUid : Option Uid
  processedUids : Option (List Uid)
  deriving DecidableEq

/-- The default data of line 39: `{ lastEmailUid: null }`. -/
def defaultData : DbData := { lastEmailUid := none, processedUids := none }

/-- `await db.read()` (line 40): a missing or `null` store file leaves
`db.data` at the constructor's default data (lowdb keeps the default when
the adapter yields nothing); an existing file replaces it. -/
def lowRead (file : Option DbData) : DbData :=
  match file with
  | some d => d
  | none => defaultData

/-- Store state after the startup sequence of lines 38-42.  Line 41,
`db.data ||= { processedUids: [] }`, assigns only when `db.data` is
falsy; after `db.read()` the data is always an object (either the file's
contents or the truthy default `{ lastEmailUid: null }`), so the line
never assigns and is modelled as the identity.  Line 42 writes the state
back unchanged. -/
def startupData (file : Option DbData) : DbData := lowRead file

/-- `hasProcessed` (lines 44-46): `db?.data?.processedUids?.includes(uid)`.
When `processedUids` is absent the optional chain yields `undefined`,
which is falsy wherever the result is used (line 176), hence `false`. -/
def hasProcessed (d : DbData) (u : Uid) : Bool :=
  match d.processedUids with
  | some l => l.any fun x => decide (x = u)
  | none => false

/-- `markProcessed` (lines 47-53): push `uid`, then if the list length
exceeds 2000 keep only the last 2000 (`slice(-2000)`), then persist.
When `processedUids` is absent, the optional chains make both the push
and the cap no-ops and the store is written back unchanged. -/
def markProcessed (d : DbData) (u : Uid) : DbData :=
  match d.processedUids with
  | none => d
  | some l =>
    let l1 := l ++ [u]
    let l2 := if l1.length > 2000 then l1.drop (l1.length - 2000) else l1
    { d with processedUids := some l2 }

/-- The last `k` elements of a list (JS `slice(-k)` keeps the last `k`
elements when the list is longer than `k`, and the whole list
otherwise). -/
def lastN (k : Nat) (l : List Uid) : List Uid := l.drop (l.length - k)

/-- Outcome of one HTTP attempt of the Telegram sender: success (2xx,
JSON body, line 77) or an error message (the thrown
`Telegram API error status: txt` of line 75 or a network failure). -/
def exErr (r : Except (List Char) Unit) : Bool :=
  match r with
  | Except.error _ => true
  | Except.ok _ => false

/-- The retry loop of `pRetry` with `{ retries: 3, factor: 2 }`
(lines 66-80 and the p-retry dependency's documented contract): run the
attempt; on failure, if retries remain, retry, otherwise surface the last
failure.  First argument of the pair is the final result, second is the
number of attempts performed; attempts are numbered from 0. -/
def pRetryGo (f : Nat → Except (List Char) Unit) : Nat → Nat → Except (List Char) Unit × Nat
  | 0, i => (f i, i + 1)
  | r + 1, i =>
    match f i with
    | Except.ok a => (Except.ok a, i + 1)
    | Except.error _ => pRetryGo f r (i + 1)

/-- `sendTelegramMessage` (lines 56-81): one POST per attempt, wrapped in
`pRetry(..., { retries: 3, factor: 2 })`.  The transport abstracts one
HTTP attempt. -/
def sendTelegramMessage (transport : Nat → Except (List Char) Unit) :
    Except (List Char) Unit × Nat :=
  pRetryGo transport 3 0

/-- Backoff delay in milliseconds before retry `k` (p-retry's documented
formula `minTimeout * factor ^ k` with the default `minTimeout` of
1000 ms and the configured factor 2 of line 79). -/
def retryDelay (k : Nat) : Nat := 1000 * 2 ^ k

/-- Global replacement of the single character `c` by the string `r`,
as done by `str.replace(/c/g, r)` for a one-character pattern
(line 85). -/
def replaceChar : List Char → Char → List Char → List Char
  | [], _, _ => []
  | a :: as, c, r => (if a = c then r else [a]) ++ replaceChar as c r

/-- `escapeHtml` (lines 84-86): three sequential global replacements,
`&` first, then `<`, then `>`. -/
def escapeHtml (l : List Char) : List Char :=
  replaceChar (replaceChar (replaceChar l '&' "&amp;".toList) '<' "&lt;".toList) '>' "&gt;".toList

/-- Per-character entity mapping: what the spec's escaping sentence
describes.  `escapeHtml` is proved equal to mapping this over the
input. -/
def escChar (c : Char) : List Char :=
  if c = '&' then "&amp;".toList
  else if c = '<' then "&lt;".toList
  else if c = '>' then "&gt;".toList
  else [c]

/-- Pointwise application of `escChar` to every character. -/
def escAll : List Char → List Char
  | [] => []
  | c :: cs => escChar c ++ escAll cs

/-- `shorten` (lines 87-91): empty input gives `""` (JS `!s`); input of
length at most `n` is returned unchanged; otherwise the first `n - 1`
characters (`slice(0, n - 1)`, for `n ≥ 1`) with the one-character
ellipsis appended. -/
def shorten (s : List Char) (n : Nat) : List Char :=
  if s = [] then []
  else if s.length ≤ n then s
  else s.take (n - 1) ++ ['…']

/-- Tag stripping `html.replace(/<[^>]+>/g, "")` (line 188): at each
`<`, the greedy `[^>]+` takes the maximal run of non-`>` characters; the
match succeeds when that run is nonempty and is followed by `>`, and the
whole segment is removed; otherwise scanning resumes after the `<`. -/
def stripTags : List Char → List Char
  | [] => []
  | a :: rest =>
    if a = '<' then
      let body := rest.takeWhile fun c => c != '>'
      match h : rest.drop body.length with
      | '>' :: rest' =>
        if body.length = 0 then a :: stripTags rest
        else stripTags rest'
      | _ => a :: stripTags rest
    else a :: stripTags rest
termination_by l => l.length
decreasing_by
  all_goals simp_wf
  have hlen := congrArg List.length h
  simp [List.length_drop] at hlen
  omega

/-- JS `x || dflt` for a string-valued `x` that may be absent: absent and
the empty string are falsy. -/
def jsOr (o : Option (List Char)) (dflt : List Char) : List Char :=
  match o with
  | some (c :: cs) => c :: cs
  | _ => dflt

/-- `Number(MAX_BODY_CHARS)` with the env default of line 23. -/
def maxBodyChars : Nat := 1500

/-- Decimal rendering of a number interpolated into a template string. -/
def natChars (n : Nat) : List Char := (Nat.repr n).toList

/-- An attachment descriptor as produced by the mail parser: `filename`
may be absent, `contentType` text, `size` in bytes (lines 199-202). -/
structure Attachment where
  filename : Option (List Char)
  contentType : List Char
  size : Nat

/-- A parsed message (the fields of `parsed` read on lines 181-195). -/
structure Parsed where
  fromText : Option (List Char)
  subject : Option (List Char)
  dateStr : Option (List Char)
  text : Option (List Char)
  html : Option (List Char)
  attachments : List Attachment

/-- The body text fed to `escapeHtml` on lines 186-189:
`parsed.text || (parsed.html ? parsed.html.replace(/<[^>]+>/g, "") : "")`,
with JS string truthiness on both fields. -/
def bodySource (p : Parsed) : List Char :=
  match p.text with
  | some (c :: cs) => c :: cs
  | _ =>
    match p.html with
    | some (c :: cs) => stripTags (c :: cs)
    | _ => []

/-- `parsed.date ? parsed.date.toUTCString() : ""` (line 183); a present
`Date` object is always truthy. -/
def dateField (p : Parsed) : List Char :=
  match p.dateStr with
  | some dStr => dStr
  | none => []

/-- One attachment's summary line (lines 198-203):
`• filename-or-unnamed (contentType, size bytes)`, with no escaping. -/
def attachmentLine (a : Attachment) : List Char :=
  "• ".toList ++ jsOr a.filename "unnamed".toList ++ " (".toList ++ a.contentType
    ++ ", ".toList ++ natChars a.size ++ " bytes)".toList

/-- `join("\n")` of line 204. -/
def joinNl : List (List Char) → List Char
  | [] => []
  | [x] => x
  | x :: xs => x ++ '\n' :: joinNl xs

/-- The attachments block of lines 194-205: empty when there are no
attachments, otherwise a header with the count and one line per
attachment. -/
def attachmentsSummary (atts : List Attachment) : List Char :=
  if atts.length = 0 then []
  else
    "\nAttachments (".toList ++ natChars atts.length ++ "):\n".toList
      ++ joinNl (atts.map attachmentLine)

/-- The notification text built on lines 181-213: the template of
line 207 with sender, subject and date escaped, the body escaped then
shortened to `maxBodyChars`, and the attachments block appended
verbatim. -/
def buildMessage (p : Parsed) : List Char :=
  "<b>New Email</b>\n<b>From:</b> ".toList ++ escapeHtml (jsOr p.fromText "Unknown".toList)
    ++ "\n<b>Subject:</b> ".toList ++ escapeHtml (jsOr p.subject "(no subject)".toList)
    ++ "\n<b>Date:</b> ".toList ++ escapeHtml (dateField p)
    ++ "\n\n".toList ++ shorten (escapeHtml (bodySource p)) maxBodyChars
    ++ attachmentsSummary p.attachments

/-- One fetched message as the poller sees it after the uid fallback of
lines 172-175 (`uid` is the resolved identifier), with the parse outcome
of `simpleParser` and the per-attempt outcome of this message's Telegram
transport. -/
structure MsgInput where
  uid : Uid
  parsed : Except Unit Parsed
  transport : Nat → Except (List Char) Unit

/-- Observable actions of one poll cycle, in order: the IMAP search
issued, each invocation of the Telegram sender (`post`), each successful
`markProcessed` (`mark`), and the error logs of lines 152, 221 and
225. -/
inductive Event where
  | search (unseen : Bool) (since : Nat)
  | post (uid : Uid) (text : List Char)
  | mark (uid : Uid)
  | logParseErr
  | logSendErr (e : List Char)
  | logSearchErr (e : List Char)
  deriving DecidableEq

/-- Processing of one fetched message (lines 169-227): on a parse error,
log and skip (line 225); if `hasProcessed(uid)`, return silently
(lines 176-179); otherwise build the text, wait 5 s (line 216, no state
effect), invoke the sender; on success mark the uid processed, on
failure log and leave the store unchanged (lines 215-222). -/
def processMessage (d : DbData) (m : MsgInput) : DbData × List Event :=
  match m.parsed with
  | Except.error _ => (d, [Event.logParseErr])
  | Except.ok p =>
    if hasProcessed d m.uid then (d, [])
    else
      match (sendTelegramMessage m.transport).1 with
      | Except.ok _ => (markProcessed d m.uid, [Event.post m.uid (buildMessage p), Event.mark m.uid])
      | Except.error e => (d, [Event.post m.uid (buildMessage p), Event.logSendErr e])

/-- Sequential processing of the fetched messages of one poll cycle, in
fetch-stream order, threading the store state. -/
def pollMessages : DbData → List MsgInput → DbData × List Event
  | d, [] => (d, [])
  | d, m :: ms =>
    let r := processMessage d m
    let rest := pollMessages r.1 ms
    (rest.1, r.2 ++ rest.2)

/-- `imapDate(days)` (lines 120-142): the calendar date `days` days
before its call time, modelled at day granularity (the source formats it
as `d-MMM-yyyy`; the formatting is irrelevant to the claims). -/
def imapDate (today : Nat) (days : Nat) : Nat := today - days

/-- `const sinceDate = imapDate(30)` (line 145): computed once at module
load, from the process start day. -/
def sinceDate (startDay : Nat) : Nat := imapDate startDay 30

/-- The search criteria of line 150: `["UNSEEN", ["SINCE", sinceDate]]`. -/
structure SearchQuery where
  unseen : Bool
  since : Nat
  deriving DecidableEq

/-- The query `fetchAndProcess` passes to `imap.search`, for a process
whose module was loaded on `startDay`. -/
def searchQ (startDay : Nat) : SearchQuery :=
  { unseen := true, since := sinceDate startDay }

/-- `fetchAndProcess` (lines 148-242): search with the module-level
`sinceDate`; on search error log and resolve (lines 151-154); on no
results resolve (line 155); otherwise fetch `results.slice(0, 50)`
(line 159) and process each.  The returned pair always resolves: no
error escapes the poll. -/
def fetchAndProcess (startDay : Nat) (d : DbData)
    (search : SearchQuery → Except (List Char) (List MsgInput)) : DbData × List Event :=
  let q := searchQ startDay
  match search q with
  | Except.error e => (d, [Event.search q.unseen q.since, Event.logSearchErr e])
  | Except.ok results =>
    if results.length = 0 then (d, [Event.search q.unseen q.since])
    else
      let r := pollMessages d (results.take 50)
      (r.1, Event.search q.unseen q.since :: r.2)

/-- Modelled from the spec: the search window the claim describes,
"received within the last 30 days, measured relative to the time of that
poll" - i.e. computed from the poll day, not the process start day.
Used only to compare against the source's `sinceDate`. -/
def specSinceWindow (pollDay : Nat) : Nat := pollDay - 30

/-- Number of Telegram-sender invocations in an event trace. -/
def countPosts (evs : List Event) : Nat :=
  (evs.filter fun e => match e with | Event.post _ _ => true | _ => false).length

/-- Number of successful mark-seen records in an event trace. -/
def countMarks (evs : List Event) : Nat :=
  (evs.filter fun e => match e with | Event.mark _ => true | _ => false).length

/-- Whether `seg` occurs as a contiguous segment of `l` (executable, used
to exhibit unescaped text inside a built message). -/
def begMatch : List Char → List Char → Bool
  | [], _ => true
  | _ :: _, [] => false
  | a :: as, b :: bs => a = b && begMatch as bs

/-- Segment containment: some suffix of `l` starts with `seg`. -/
def containsSeg : List Char → List Char → Bool
  | l, [] => l == l
  | [], _ :: _ => false
  | a :: as, seg => begMatch seg (a :: as) || containsSeg as seg

/-- A minimal parsed message used in concrete evaluations. -/
def p0 : Parsed :=
  { fromText := some "alice".toList, subject := some "hi".toList, dateStr := none,
    text := some "hello".toList, html := none, attachments := [] }

/-- A transport whose every attempt succeeds. -/
def okTransport : Nat → Except (List Char) Unit := fun _ => Except.ok ()

/-- A transport whose attempt `i` fails with the message `i`. -/
def failTransport : Nat → Except (List Char) Unit := fun i => Except.error (natChars i)

/-- Message with uid 7 whose send succeeds. -/
def m7 : MsgInput := { uid := Uid.num 7, parsed := Except.ok p0, transport := okTransport }

/-- Message with uid 7 whose send fails on every attempt. -/
def m7fail : MsgInput := { uid := Uid.num 7, parsed := Except.ok p0, transport := failTransport }

/-- A parsed message carrying one attachment whose filename contains the
markup metacharacters. -/
def pAtt : Parsed :=
  { fromText := some "alice".toList, subject := some "hi".toList, dateStr := none,
    text := some "hello".toList, html := none,
    attachments := [{ filename := some "<evil>&name.pdf".toList,
                      contentType := "application/pdf".toList, size := 123 }] }

/-! ## Helper lemmas -/

theorem replaceChar_append (u v : List Char) (c : Char) (r : List Char) :
    replaceChar (u ++ v) c r = replaceChar u c r ++ replaceChar v c r := by
  induction u with
  | nil => simp [replaceChar]
  | cons a as ih => simp [replaceChar, ih]

theorem escapeHtml_append (u v : List Char) :
    escapeHtml (u ++ v) = escapeHtml u ++ escapeHtml v := by
  simp [escapeHtml, replaceChar_append]

theorem escapeHtml_single (c : Char) : escapeHtml [c] = escChar c := by
  by_cases h1 : c = '&'
  · subst h1; decide
  · by_cases h2 : c = '<'
    · subst h2; decide
    · by_cases h3 : c = '>'
      · subst h3; decide
      · simp [escapeHtml, replaceChar, escChar, h1, h2, h3]

theorem escapeHtml_eq_escAll (l : List Char) : escapeHtml l = escAll l := by
  induction l with
  | nil => rfl
  | cons c cs ih =>
    have : escapeHtml (c :: cs) = escapeHtml [c] ++ escapeHtml cs := by
      have := escapeHtml_append [c] cs
      simpa using this
    rw [this, escapeHtml_single, ih, escAll]

theorem lastOfAppendSingleton (l : List Char) (a : Char) :
    (l ++ [a]).getLast? = some a := by
  rw [List.getLast?_append_cons]
  rfl

/-! ## The store on a fresh start (the slip behind C1-C4) -/

/-- On a store whose data does carry a `processedUids` list, one
`markProcessed` yields exactly the last 2000 elements of the appended
list (the intended cap behaviour of lines 47-53). -/
theorem markProcessed_some (d : DbData) (l : List Uid) (u : Uid)
    (h : d.processedUids = some l) :
    (markProcessed d u).processedUids = some (lastN 2000 (l ++ [u])) := by
  obtain ⟨le, pu⟩ := d
  change pu = some l at h
  subst h
  show some (if (l ++ [u]).length > 2000 then (l ++ [u]).drop ((l ++ [u]).length - 2000) else l ++ [u])
      = some (lastN 2000 (l ++ [u]))
  by_cases hlen : (l ++ [u]).length > 2000
  · rw [if_pos hlen]; rfl
  · rw [if_neg hlen]
    unfold lastN
    have h0 : (l ++ [u]).length - 2000 = 0 := by omega
    rw [h0, List.drop_zero]

theorem lastN_lastN_append (k : Nat) (xs ys : List Uid) :
    lastN k (lastN k xs ++ ys) = lastN k (xs ++ ys) := by
  unfold lastN
  rw [List.length_append, List.length_drop, List.length_append,
    ← List.drop_append_of_le_length (by omega), List.drop_drop]
  congr 1
  omega

theorem length_lastN_le (k : Nat) (l : List Uid) : (lastN k l).length ≤ k := by
  unfold lastN
  rw [List.length_drop]
  omega

/-- Cap behaviour of `markProcessed` on a store whose data does carry a
`processedUids` list: after any sequence of calls the retained list is
exactly the last 2000 identifiers of the whole append stream, in append
order, and hence never longer than 2000.  This is the behaviour claim C4
describes; on the actual fresh-start state the `processedUids` field is
absent and nothing is retained at all (see the C4 theorem below). -/
theorem markProcessed_fold_cap (le : Option Uid) (init : List Uid) (us : List Uid)
    (hinit : init.length ≤ 2000) :
    (us.foldl markProcessed { lastEmailUid := le, processedUids := some init }).processedUids
        = some (lastN 2000 (init ++ us))
      ∧ (lastN 2000 (init ++ us)).length ≤ 2000 := by
  refine ⟨?_, length_lastN_le 2000 (init ++ us)⟩
  induction us generalizing init with
  | nil =>
    show some init = some (lastN 2000 (init ++ []))
    unfold lastN
    have h0 : (init ++ []).length - 2000 = 0 := by
      rw [List.length_append]
      simp only [List.length_nil]
      omega
    rw [h0, List.drop_zero, List.append_nil]
  | cons u us ih =>
    rw [List.foldl_cons]
    have hm : markProcessed { lastEmailUid := le, processedUids := some init } u
        = { lastEmailUid := le, processedUids := some (lastN 2000 (init ++ [u])) } := by
      have := markProcessed_some { lastEmailUid := le, processedUids := some init } init u rfl
      unfold markProcessed at this ⊢
      simp only at this ⊢
      rw [this]
    rw [hm, ih (lastN 2000 (init ++ [u])) (length_lastN_le 2000 (init ++ [u]))]
    rw [lastN_lastN_append]
    rw [List.append_assoc]
    rfl

/-- The intended dedup guard: on a store whose state already records the
identifier, `processMessage` is a no-op (lines 176-179). -/
theorem processMessage_skip_when_seen (d : DbData) (m : MsgInput) (p : Parsed)
    (hp : m.parsed = Except.ok p) (h : hasProcessed d m.uid = true) :
    processMessage d m = (d, []) := by
  unfold processMessage
  rw [hp, h]
  simp

/-- C2: the claim says that with no prior store file, initialization
yields `processedUids = []`, every `contains` is `false` and every
`markSeen` appends.  On the code, startup with no prior file leaves
`db.data` at the default `{ lastEmailUid: null }`: the `processedUids`
field is absent (line 41 never assigns, because `db.data` is already a
truthy object), so `hasProcessed` is indeed falsy for every identifier,
but `markProcessed` appends nothing - the store is written back
unchanged.  This theorem evaluates the code at the failing input. -/
theorem c2_fresh_store_has_no_processedUids :
    startupData none = { lastEmailUid := none, processedUids := none }
    ∧ (startupData none).processedUids = none
    ∧ hasProcessed (startupData none) (Uid.num 5) = false
    ∧ markProcessed (startupData none) (Uid.num 5) = startupData none
    ∧ hasProcessed (markProcessed (startupData none) (Uid.num 5)) (Uid.num 5) = false :=
  ⟨rfl, rfl, rfl, rfl, rfl⟩

/-- C1: the claim says a second offering of the same identifier after a
first successful send and markSeen is a no-op (no POST, no further
markSeen).  On the actual fresh-start store, `markProcessed` records
nothing, so a second poll cycle posts (and attempts to mark) the same
identifier again: starting from the fresh store, offering uid 7 in one
cycle and again in the next produces one sender invocation and one mark
in each cycle - two POSTs in total for the same identifier. -/
theorem c1_second_offering_posts_again :
    countPosts (pollMessages (startupData none) [m7]).2 = 1
    ∧ countMarks (pollMessages (startupData none) [m7]).2 = 1
    ∧ countPosts (pollMessages (pollMessages (startupData none) [m7]).1 [m7]).2 = 1
    ∧ countMarks (pollMessages (pollMessages (startupData none) [m7]).1 [m7]).2 = 1 :=
  ⟨rfl, rfl, rfl, rfl⟩

/-- C3: the claim says every successfully sent identifier is present in
the Seen-Set before the next poll cycle.  On the fresh-start store the
identifier of a successfully sent message is still absent afterwards
(first two conjuncts: uid 7 is posted, yet `hasProcessed` remains
`false` on the resulting state).  The last two conjuncts check the half
of the claim the code does honour: a message whose send fails is never
marked, and the store is left unchanged. -/
theorem c3_sent_uid_not_recorded :
    countPosts (pollMessages (startupData none) [m7]).2 = 1
    ∧ hasProcessed (pollMessages (startupData none) [m7]).1 (Uid.num 7) = false
    ∧ (pollMessages (startupData none) [m7fail]).1 = startupData none
    ∧ countMarks (pollMessages (startupData none) [m7fail]).2 = 0 :=
  ⟨rfl, rfl, rfl, rfl⟩

/-- C4: the claim says that after any number of `markSeen` calls the
Seen-Set contains exactly the most recently seen 2000 (or fewer)
identifiers.  On the fresh-start store, `markProcessed` can append
nothing (the `processedUids` field is absent), so after three markSeen
calls the store is unchanged and contains none of the recently seen
identifiers.  (On a store whose data does carry the list, the cap logic
of lines 47-53 is correct: see `markProcessed_fold_cap`.) -/
theorem c4_markSeen_records_nothing_on_fresh_store :
    [Uid.num 1, Uid.num 2, Uid.num 3].foldl markProcessed (startupData none) = startupData none
    ∧ hasProcessed ([Uid.num 1, Uid.num 2, Uid.num 3].foldl markProcessed (startupData none))
        (Uid.num 3) = false :=
  ⟨rfl, rfl⟩

/-! ## Retry (C5) -/

theorem pRetryGo_all_fail (f : Nat → Except (List Char) Unit)
    (h : ∀ i, exErr (f i) = true) :
    ∀ r i, pRetryGo f r i = (f (i + r), i + r + 1) := by
  intro r
  induction r with
  | zero => intro i; simp [pRetryGo]
  | succ r ih =>
    intro i
    have h' := h i
    cases hfi : f i with
    | ok a => rw [hfi] at h'; simp [exErr] at h'
    | error e =>
      have hstep : pRetryGo f (r + 1) i = pRetryGo f r (i + 1) := by
        simp [pRetryGo, hfi]
      rw [hstep, ih (i + 1)]
      have harith : i + 1 + r = i + (r + 1) := by omega
      rw [harith]

/-- C5: a transport that fails on every attempt makes `sendTelegramMessage`
perform exactly 4 attempts (1 initial + the 3 retries of line 79), with
the doubling backoff of p-retry's factor 2, and surface the last
attempt's failure; in `fetchAndProcess` this failure is caught on
line 220: it is logged, the message is not marked seen, the store is
unchanged, and processing returns normally (non-fatal). -/
theorem c5_retry_exhaustion (transport : Nat → Except (List Char) Unit)
    (h : ∀ i, exErr (transport i) = true)
    (d : DbData) (u : Uid) (p : Parsed) (hns : hasProcessed d u = false) :
    (sendTelegramMessage transport).2 = 4
    ∧ (∀ k, retryDelay (k + 1) = 2 * retryDelay k)
    ∧ ∃ e, transport 3 = Except.error e
        ∧ (sendTelegramMessage transport).1 = Except.error e
        ∧ processMessage d { uid := u, parsed := Except.ok p, transport := transport }
            = (d, [Event.post u (buildMessage p), Event.logSendErr e]) := by
  have hsend : sendTelegramMessage transport = (transport 3, 4) := by
    have := pRetryGo_all_fail transport h 3 0
    simpa [sendTelegramMessage] using this
  have h3 := h 3
  cases ht : transport 3 with
  | ok a => rw [ht] at h3; simp [exErr] at h3
  | error e =>
    refine ⟨by rw [hsend], ?_, e, rfl, by rw [hsend, ht], ?_⟩
    · intro k
      unfold retryDelay
      rw [pow_succ]
      ring
    · unfold processMessage
      simp only [hns, Bool.false_eq_true, if_false, hsend, ht]

/-- Witness for C5 at a concrete always-failing transport and a concrete
store, identifier and message. -/
theorem c5_retry_exhaustion_witness :
    (sendTelegramMessage failTransport).2 = 4
    ∧ retryDelay 1 = 2 * retryDelay 0
    ∧ (sendTelegramMessage failTransport).1 = Except.error (natChars 3)
    ∧ processMessage (startupData none)
        { uid := Uid.num 9, parsed := Except.ok p0, transport := failTransport }
        = (startupData none,
           [Event.post (Uid.num 9) (buildMessage p0), Event.logSendErr (natChars 3)]) := by
  obtain ⟨h1, h2, e, he, h3, h4⟩ :=
    c5_retry_exhaustion failTransport (fun i => rfl) (startupData none) (Uid.num 9) p0 rfl
  have hee : e = natChars 3 := by
    have : (Except.error (natChars 3) : Except (List Char) Unit) = Except.error e := he
    exact (Except.error.inj this).symm
  subst hee
  exact ⟨h1, h2 0, h3, h4⟩

/-! ## Escaping (C6) -/

/-- C6: `escapeHtml` equals the per-character entity mapping - each `&`
becomes `&amp;`, each `<` becomes `&lt;`, each `>` becomes `&gt;`, and
every other character is left alone (the sequential replacement order of
line 85, `&` first, makes the three global passes compose to exactly the
pointwise map) - and the formatter applies it to the sender, the subject
(and the date) and to the body text before embedding them in the
notification template of lines 207-213. -/
theorem c6_escaping (l : List Char) :
    escapeHtml l = escAll l
    ∧ escChar '&' = "&amp;".toList
    ∧ escChar '<' = "&lt;".toList
    ∧ escChar '>' = "&gt;".toList
    ∧ (∀ c : Char, c ≠ '&' → c ≠ '<' → c ≠ '>' → escChar c = [c])
    ∧ (∀ p : Parsed, buildMessage p
        = "<b>New Email</b>\n<b>From:</b> ".toList ++ escapeHtml (jsOr p.fromText "Unknown".toList)
          ++ "\n<b>Subject:</b> ".toList ++ escapeHtml (jsOr p.subject "(no subject)".toList)
          ++ "\n<b>Date:</b> ".toList ++ escapeHtml (dateField p)
          ++ "\n\n".toList ++ shorten (escapeHtml (bodySource p)) maxBodyChars
          ++ attachmentsSummary p.attachments) := by
  refine ⟨escapeHtml_eq_escAll l, rfl, rfl, rfl, ?_, fun p => rfl⟩
  intro c h1 h2 h3
  simp [escChar, h1, h2, h3]

/-- Witness for C6 at concrete inputs: a mixed string is escaped
entity-by-entity, and an untouched character stays untouched. -/
theorem c6_escaping_witness :
    escapeHtml "a&b<c>".toList = "a&amp;b&lt;c&gt;".toList
    ∧ escChar 'x' = ['x'] := by
  obtain ⟨-, -, -, -, h5, -⟩ := c6_escaping []
  exact ⟨by decide, h5 'x' (by decide) (by decide) (by decide)⟩

/-! ## Truncation (C7) -/

/-- C7: for any cap `n ≥ 1` (the configured maximum; JS `slice(0, n - 1)`
agrees with `take (n - 1)` exactly when `n ≥ 1`, and the default is
1500): a body longer than `n` shortens to exactly `n` characters ending
in the ellipsis marker, and a body of length at most `n` is returned
unmodified. -/
theorem c7_shorten_spec (s : List Char) (n : Nat) (hn : 1 ≤ n) :
    (n < s.length → (shorten s n).length = n ∧ (shorten s n).getLast? = some '…')
    ∧ (s.length ≤ n → shorten s n = s) := by
  constructor
  · intro hlt
    have hne : s ≠ [] := by
      intro hnil
      rw [hnil] at hlt
      simp at hlt
    have hnle : ¬ s.length ≤ n := by omega
    rw [shorten, if_neg hne, if_neg hnle]
    constructor
    · rw [List.length_append, List.length_take]
      simp only [List.length_cons, List.length_nil]
      omega
    · exact lastOfAppendSingleton (s.take (n - 1)) '…'
  · intro hle
    by_cases hnil : s = []
    · rw [shorten, if_pos hnil, hnil]
    · rw [shorten, if_neg hnil, if_pos hle]

/-- Witness for C7 at the default cap of 1500: a 1501-character body
shortens to exactly 1500 characters ending in the ellipsis, and a short
body passes through unchanged. -/
theorem c7_shorten_spec_witness :
    (shorten (List.replicate 1501 'a') 1500).length = 1500
    ∧ (shorten (List.replicate 1501 'a') 1500).getLast? = some '…'
    ∧ shorten "hello".toList 1500 = "hello".toList := by
  obtain ⟨h1, -⟩ := c7_shorten_spec (List.replicate 1501 'a') 1500 (by omega)
  obtain ⟨ha, hb⟩ := h1 (by rw [List.length_replicate]; omega)
  refine ⟨ha, hb, ?_⟩
  exact (c7_shorten_spec "hello".toList 1500 (by omega)).2 (by decide)

/-! ## Poll batch bound (C8) -/

/-- C8: one poll cycle processes at most the first 50 search results, in
search order (`results.slice(0, 50)` on line 159): whenever the search
succeeds with a nonempty result list, the per-message processing runs on
exactly `results.take 50`; that prefix never exceeds 50 entries, and for
a 60-entry result list it is exactly the first 50 entries (the remaining
10 are the dropped suffix). -/
theorem c8_poll_takes_first_fifty (d : DbData) (results : List MsgInput) :
    (∀ startDay search, search (searchQ startDay) = Except.ok results → results ≠ [] →
        fetchAndProcess startDay d search
          = ((pollMessages d (results.take 50)).1,
             Event.search true (sinceDate startDay) :: (pollMessages d (results.take 50)).2))
    ∧ (results.take 50).length ≤ 50
    ∧ (results.length = 60 →
        (results.take 50).length = 50
        ∧ results.take 50 ++ results.drop 50 = results
        ∧ (results.drop 50).length = 10) := by
  refine ⟨?_, ?_, ?_⟩
  · intro startDay search hs hne
    have hlen : ¬ results.length = 0 := by
      intro h0
      exact hne (List.length_eq_zero.mp h0)
    simp only [fetchAndProcess]
    rw [hs]
    simp only [hlen, if_false]
    rfl
  · rw [List.length_take]
    omega
  · intro h60
    refine ⟨?_, List.take_append_drop 50 results, ?_⟩
    · rw [List.length_take, h60]
      omega
    · rw [List.length_drop, h60]

/-- Witness for C8: a search returning 60 copies of a concrete message
is processed on exactly its 50-entry prefix. -/
theorem c8_poll_takes_first_fifty_witness :
    fetchAndProcess 100 (startupData none) (fun _ => Except.ok (List.replicate 60 m7))
      = ((pollMessages (startupData none) ((List.replicate 60 m7).take 50)).1,
         Event.search true (sinceDate 100)
           :: (pollMessages (startupData none) ((List.replicate 60 m7).take 50)).2)
    ∧ ((List.replicate 60 m7).take 50).length = 50
    ∧ ((List.replicate 60 m7).drop 50).length = 10 := by
  obtain ⟨h1, -, h3⟩ := c8_poll_takes_first_fifty (startupData none) (List.replicate 60 m7)
  have h60 : (List.replicate 60 m7).length = 60 := List.length_replicate 60 m7
  have hne : List.replicate 60 m7 ≠ [] := by
    intro hnil
    have := congrArg List.length hnil
    rw [h60] at this
    simp at this
  obtain ⟨ha, -, hc⟩ := h3 h60
  exact ⟨h1 100 (fun _ => Except.ok (List.replicate 60 m7)) rfl hne, ha, hc⟩

/-! ## Search window (C9) -/

/-- C9 counterexample: the claim says the 30-day window is measured
relative to the time of each poll.  In the code, `sinceDate` is computed
once at module load (line 145) and every later `imap.search` reuses it
(line 150): `fetchAndProcess` takes no poll-time input at all.  For a
process whose module was loaded on day 100, a poll cycle executed on day
131 still searches SINCE day 70, whereas the claimed per-poll window
would be SINCE day 101. -/
theorem c9_window_counterexample :
    (fetchAndProcess 100 (startupData none) (fun _ => Except.ok [])).2
      = [Event.search true 70]
    ∧ specSinceWindow 131 = 101
    ∧ (70 : Nat) ≠ 101 :=
  ⟨rfl, rfl, by decide⟩

/-- C9 amended: every invocation of the poll operation issues a search
for messages that are unseen and received since 30 days before the
module-load time (the window is fixed at startup, not per poll), and on
search failure it logs the error and returns without error. -/
theorem c9_amended_window (startDay : Nat) (d : DbData)
    (search : SearchQuery → Except (List Char) (List MsgInput)) :
    ((fetchAndProcess startDay d search).2).head?
      = some (Event.search true (startDay - 30))
    ∧ (∀ e, search { unseen := true, since := startDay - 30 } = Except.error e →
        fetchAndProcess startDay d search
          = (d, [Event.search true (startDay - 30), Event.logSearchErr e])) := by
  constructor
  · cases hq : search (searchQ startDay) with
    | error e =>
      simp only [fetchAndProcess]
      rw [hq]
      rfl
    | ok results =>
      by_cases h0 : results.length = 0
      · simp only [fetchAndProcess]
        rw [hq]
        simp only [h0, if_pos]
        rfl
      · simp only [fetchAndProcess]
        rw [hq]
        simp only [h0, if_false]
        rfl
  · intro e he
    simp only [fetchAndProcess]
    rw [show searchQ startDay = { unseen := true, since := startDay - 30 } from rfl, he]

/-- Witness for C9 amended, at a concrete start day and a failing
search. -/
theorem c9_amended_window_witness :
    ((fetchAndProcess 100 (startupData none) (fun _ => Except.error "boom".toList)).2).head?
      = some (Event.search true 70)
    ∧ fetchAndProcess 100 (startupData none) (fun _ => Except.error "boom".toList)
      = (startupData none, [Event.search true 70, Event.logSearchErr "boom".toList]) := by
  obtain ⟨h1, h2⟩ :=
    c9_amended_window 100 (startupData none) (fun _ => Except.error "boom".toList)
  exact ⟨h1, h2 "boom".toList rfl⟩

/-! ## Attachments are embedded unescaped (C10) -/

/-- C10: each attachment line embeds the filename (or `unnamed` when the
filename is absent or empty), the content type and the byte size
verbatim - no `escapeHtml` is applied on lines 196-204 - so an
attachment filename containing markup metacharacters reaches the built
notification text unescaped: the message built for `pAtt` contains the
raw segment `<evil>&name.pdf`, which escaping would have rewritten. -/
theorem c10_attachments_unescaped :
    (∀ a : Attachment, attachmentLine a
        = "• ".toList ++ jsOr a.filename "unnamed".toList ++ " (".toList ++ a.contentType
          ++ ", ".toList ++ natChars a.size ++ " bytes)".toList)
    ∧ attachmentLine { filename := none, contentType := "text/plain".toList, size := 7 }
        = "• unnamed (text/plain, 7 bytes)".toList
    ∧ containsSeg (buildMessage pAtt) "<evil>&name.pdf".toList = true
    ∧ escapeHtml "<evil>&name.pdf".toList ≠ "<evil>&name.pdf".toList :=
  ⟨fun a => rfl, by decide, by decide, by decide⟩
